import Mathlib

/-!
Verification of the ping-pong repository: an authoritative server tick engine
(src/server/src/index.ts) and a client-side reconstruction buffer
(src/client/src/components/GameEngine.tsx).

The client buffer works on wire numbers that only ever go through exact
field operations, so it is embedded over ℚ.  The server physics uses
Math.cos / Math.sin / Math.hypot, so it is embedded over ℝ with the usual
idealisation of JavaScript numbers as real numbers.
-/

namespace PingPong

/-! ## Client reconstruction buffer (GameEngine.tsx) -/

/-- One side's paddle data inside a snapshot: `{ y, score }`. -/
structure PaddleInfo where
  y : ℚ
  score : ℚ
  deriving DecidableEq

/-- A reconstruction-buffer entry as pushed by `ws.onmessage` for a
`state` message: `{ t, ball: {x, y}, left, right }`. -/
structure Entry where
  t : ℚ
  ballX : ℚ
  ballY : ℚ
  left : Option PaddleInfo
  right : Option PaddleInfo
  deriving DecidableEq

/-- Default entry used to give out-of-range reads a value; the scan in
`sampIdxAux` only ever reads in-range indices. -/
def dEntry : Entry := ⟨0, 0, 0, none, none⟩

/-- The pose produced by `sampleState`: ball position plus optional
per-side paddle-and-score. -/
structure Pose where
  ballX : ℚ
  ballY : ℚ
  left : Option PaddleInfo
  right : Option PaddleInfo
  deriving DecidableEq

/-- The pose stored in a buffer entry (used by the `return buf[buf.length-1]`
fallback, where the raw entry is returned). -/
def poseOf (e : Entry) : Pose := ⟨e.ballX, e.ballY, e.left, e.right⟩

/-- `lerp(a, b, t) = a + (b - a) * t` from GameEngine.tsx. -/
def lerp (a b t : ℚ) : ℚ := a + (b - a) * t

/-- `clamp01(v) = Math.max(0, Math.min(1, v))` from GameEngine.tsx. -/
def clamp01 (v : ℚ) : ℚ := max 0 (min 1 v)

/-- Eviction loop from `ws.onmessage`:
`while (buf.length > 2 && buf[0].t < cutoff) buf.shift();`. -/
def evict (cutoff : ℚ) : List Entry → List Entry
  | [] => []
  | e :: rest =>
    if 2 < (e :: rest).length ∧ e.t < cutoff then evict cutoff rest
    else e :: rest

/-- Ingest of one `state` message: push the new entry, then run the
time-based eviction loop. -/
def ingest (cutoff : ℚ) (e : Entry) (buf : List Entry) : List Entry :=
  evict cutoff (buf ++ [e])

/-- The backward scan
`let i = buf.length - 1; while (i > 0 && buf[i-1].t > renderTime) i--;`
expressed as a recursion on the loop counter. -/
def sampIdxAux (buf : List Entry) (rt : ℚ) : ℕ → ℕ
  | 0 => 0
  | k + 1 => if (buf.getD k dEntry).t > rt then sampIdxAux buf rt k else k + 1

/-- The `(prev, next)` pair selected by `sampleState`:
`prev = buf[Math.max(0, i-1)], next = buf[i]`, with the JS
`if (!prev || !next)` undefined check expressed through `List.get?`. -/
def bracketAt (buf : List Entry) (rt : ℚ) : Option (Entry × Entry) :=
  let i := sampIdxAux buf rt (buf.length - 1)
  match buf.get? (i - 1), buf.get? i with
  | some prev, some next => some (prev, next)
  | _, _ => none

/-- The interpolation factor of `sampleState`:
`total = next.t - prev.t || 1; alpha = clamp01((renderTime - prev.t) / total)`. -/
def alphaAt (prev next : Entry) (rt : ℚ) : ℚ :=
  let total0 := next.t - prev.t
  let total := if total0 = 0 then 1 else total0
  clamp01 ((rt - prev.t) / total)

/-- The per-side merge of the interpolated object:
`next.left && prev.left ? {y: lerp(...), score: next.left.score} : next.left || prev.left`. -/
def mergeSide (alpha : ℚ) (pl nl : Option PaddleInfo) : Option PaddleInfo :=
  match nl, pl with
  | some n, some p => some ⟨lerp p.y n.y alpha, n.score⟩
  | some n, none => some n
  | none, p => p

/-- The interpolated record returned by `sampleState` for a `(prev, next)` pair. -/
def interpPose (prev next : Entry) (alpha : ℚ) : Pose :=
  { ballX := lerp prev.ballX next.ballX alpha
    ballY := lerp prev.ballY next.ballY alpha
    left := mergeSide alpha prev.left next.left
    right := mergeSide alpha prev.right next.right }

/-- `sampleState(renderTime)` from GameEngine.tsx. -/
def sampleState (buf : List Entry) (rt : ℚ) : Option Pose :=
  if buf.length = 0 then none
  else
    match bracketAt buf rt with
    | some (prev, next) => some (interpPose prev next (alphaAt prev next rt))
    | none => (buf.getLast?).map poseOf

/-! ## Server tick engine (src/server/src/index.ts) -/

noncomputable section

/-- `const WIDTH = 800`. -/
def WIDTH : ℝ := 800

/-- `const HEIGHT = 500`. -/
def HEIGHT : ℝ := 500

/-- `const PADDLE_W = 12`. -/
def PADDLE_W : ℝ := 12

/-- `const PADDLE_H = 90`. -/
def PADDLE_H : ℝ := 90

/-- `const BALL_R = 8`. -/
def BALL_R : ℝ := 8

/-- `const PADDLE_SPEED = 6`. -/
def PADDLE_SPEED : ℝ := 6

/-- `const LAG_COMP_MS = 100`. -/
def LAG_COMP_MS : ℝ := 100

/-- The ball record: position and velocity. -/
structure Ball where
  x : ℝ
  y : ℝ
  vx : ℝ
  vy : ℝ

/-- `left` / `right` side assignment. -/
inductive Side where
  | left
  | right
  deriving DecidableEq

/-- A server `Player` record (connection handle aside): paddle offset,
score, discrete movement flags, last pong timestamp and the optional
absolute touch target. -/
structure PlayerS where
  y : ℝ
  score : ℤ
  up : Bool
  down : Bool
  lastPong : ℝ
  desiredY : Option ℝ

/-- Inbound client→server messages after the JSON/type guards of
`ws.on("message")`; `other` stands for any unrecognized or malformed
payload, which the handler drops. -/
inductive Msg where
  | input (up down : Bool)
  | pong (now : ℝ)
  | touchMove (desiredY : ℝ)
  | other

/-- The `desiredY` clamp in the `touchMove` branch:
`Math.max(PADDLE_H/2, Math.min(HEIGHT - PADDLE_H/2, msg.desiredY))`. -/
def clampDesired (d : ℝ) : ℝ := max (PADDLE_H / 2) (min (HEIGHT - PADDLE_H / 2) d)

/-- The `ws.on("message")` handler's effect on the sending player. -/
def handleMessage (p : PlayerS) : Msg → PlayerS
  | .input u d => { p with up := u, down := d }
  | .pong now => { p with lastPong := now }
  | .touchMove d => { p with desiredY := some (clampDesired d) }
  | .other => p

/-- One tick's homing motion toward a touch target:
`step = clamp(desired - (y + PADDLE_H/2), -18, 18); y = clamp(y + step, 0, HEIGHT - PADDLE_H)`. -/
def homeStep (desired y : ℝ) : ℝ :=
  max 0 (min (HEIGHT - PADDLE_H) (y + max (-18) (min 18 (desired - (y + PADDLE_H / 2)))))

/-- The per-tick paddle update: target-mode homing when `desiredY` is set,
otherwise constant-speed motion from the up/down flags, clamped to the field. -/
def updatePaddle (p : PlayerS) : PlayerS :=
  match p.desiredY with
  | some d => { p with y := homeStep d p.y }
  | none =>
    let vy := (if p.up then -PADDLE_SPEED else 0) + (if p.down then PADDLE_SPEED else 0)
    { p with y := max 0 (min (HEIGHT - PADDLE_H) (p.y + vy)) }

/-- An event affecting one player while the match lives: an inbound
message, or one firing of the tick interval. -/
inductive Ev where
  | msg (m : Msg)
  | tick

/-- Apply one event to a player record. -/
def applyEv (p : PlayerS) : Ev → PlayerS
  | .msg m => handleMessage p m
  | .tick => updatePaddle p

/-- `b.x += b.vx; b.y += b.vy` (explicit Euler integration). -/
def moveBall (b : Ball) : Ball := { b with x := b.x + b.vx, y := b.y + b.vy }

/-- The two wall-reflection checks, in source order; the second check reads
the state left by the first. -/
def wallStep (b : Ball) : Ball :=
  let b1 := if b.y - BALL_R ≤ 0 ∧ b.vy < 0 then { b with y := BALL_R, vy := -b.vy } else b
  if b1.y + BALL_R ≥ HEIGHT ∧ b1.vy > 0 then { b1 with y := HEIGHT - BALL_R, vy := -b1.vy }
  else b1

/-- The AABB overlap test of `collide`. -/
def overlaps (padX padY : ℝ) (b : Ball) : Prop :=
  b.x - BALL_R < padX + PADDLE_W ∧ b.x + BALL_R > padX ∧
  b.y + BALL_R > padY ∧ b.y - BALL_R < padY + PADDLE_H

instance (padX padY : ℝ) (b : Ball) : Decidable (overlaps padX padY b) := by
  unfold overlaps
  infer_instance

/-- The `collide` function of the tick loop. -/
def collide (padX padY : ℝ) (isL : Bool) (b : Ball) : Ball :=
  if overlaps padX padY b then
    let x1 := if b.vx < 0 ∧ isL = true then padX + PADDLE_W + BALL_R else b.x
    let x2 := if b.vx > 0 ∧ isL = false then padX - BALL_R else x1
    let relative := (b.y - (padY + PADDLE_H / 2)) / (PADDLE_H / 2)
    let maxBounce := Real.pi / 4
    let speed := min (Real.sqrt (b.vx ^ 2 + b.vy ^ 2) * 1.03) 12
    let angle := relative * maxBounce
    let dir : ℝ := if isL then 1 else -1
    { x := x2, y := b.y, vx := Real.cos angle * speed * dir, vy := Real.sin angle * speed }
  else b

/-- `Math.hypot(b.vx, b.vy)`: the ball's current speed. -/
def speedOf (b : Ball) : ℝ := Real.sqrt (b.vx ^ 2 + b.vy ^ 2)

/-- The paddle-collision phase: `if (left) collide(20, left.y, true);
if (right) collide(WIDTH - 20 - PADDLE_W, right.y, false);`. -/
def collideStep (lp rp : Option ℝ) (b : Ball) : Ball :=
  let b1 := match lp with
    | some ly => collide 20 ly true b
    | none => b
  match rp with
  | some ry => collide (WIDTH - 20 - PADDLE_W) ry false b1
  | none => b1

/-- `resetBall(dir)`, with the random draw `Math.random() * 0.6 - 0.3`
passed in as the `angle` parameter. -/
def resetBall (angle : ℝ) (dir : ℝ) : Ball :=
  { x := WIDTH / 2, y := HEIGHT / 2, vx := Real.cos angle * 5 * dir, vy := Real.sin angle * 5 }

/-- The two sequential goal checks of the tick loop, acting on the ball and
the two optional players; `a1`, `a2` are the random angles a reset would
draw. Left player sits at `.2.1`, right player at `.2.2`. -/
def goalStep (a1 a2 : ℝ) (L R : Option PlayerS) (b : Ball) :
    Ball × Option PlayerS × Option PlayerS :=
  let s1 :=
    if b.x < -(BALL_R * 2) then
      (resetBall a1 1, L, R.map fun p => { p with score := p.score + 1 })
    else (b, L, R)
  if s1.1.x > WIDTH + BALL_R * 2 then
    (resetBall a2 (-1), s1.2.1.map fun p => { p with score := p.score + 1 }, s1.2.2)
  else s1

/-- The ball's trajectory through one full tick: integration, wall
reflection, paddle collision, goal check.  `lp`, `rp` are the paddle
offsets of the occupied sides, `a1`, `a2` the reset angles. -/
def tickBall (lp rp : Option ℝ) (a1 a2 : ℝ) (b : Ball) : Ball :=
  (goalStep a1 a2 none none (collideStep lp rp (wallStep (moveBall b)))).1

/-- The ball states a match can reach at tick boundaries: the initial
`makeMatch` ball (`vx = ±5`, `vy = (r*2-1)*4`), any `resetBall` re-arm from
`teardownMatch`, and the image of a full tick under arbitrary paddle
placements and reset angles. -/
inductive ReachBall : Ball → Prop where
  | init (s r : ℝ) (hs : s = 1 ∨ s = -1) (hr : 0 ≤ r ∧ r ≤ 1) :
      ReachBall { x := WIDTH / 2, y := HEIGHT / 2, vx := 5 * s, vy := (r * 2 - 1) * 4 }
  | rearm (a d : ℝ) : ReachBall (resetBall a d)
  | step (lp rp : Option ℝ) (a1 a2 : ℝ) (b : Ball) (hb : ReachBall b) :
      ReachBall (tickBall lp rp a1 a2 b)

/-- The inductive strengthening used for the position invariant: the ball's
vertical position sits between the wall clamps, its horizontal position
within the goal margins. -/
def BallInv (b : Ball) : Prop :=
  BALL_R ≤ b.y ∧ b.y ≤ HEIGHT - BALL_R ∧ -(2 * BALL_R) ≤ b.x ∧ b.x ≤ WIDTH + 2 * BALL_R

/-- Network-visible actions of the connection handler. -/
inductive NetAct where
  | sendFull
  | closeConn
  | sendInit (side : Side) (width height lagComp : ℝ)
  deriving DecidableEq

/-- The server-side match state: ordered player list, ball, sequence number. -/
structure SMatch where
  players : List (Side × PlayerS)
  ball : Ball
  seq : ℤ

/-- The `wss.on("connection")` handler: reject with `full` + close at
capacity, otherwise admit on the first free side with a centered paddle and
send `init`; `now` stands for the admission-time clock read used for the
initial `lastPong`. -/
def handleConnection (now : ℝ) (m : SMatch) : SMatch × List NetAct :=
  if 2 ≤ m.players.length then (m, [NetAct.sendFull, NetAct.closeConn])
  else
    let side := if m.players.length = 0 then Side.left else Side.right
    let p : PlayerS :=
      { y := HEIGHT / 2 - PADDLE_H / 2, score := 0, up := false, down := false,
        lastPong := now, desiredY := none }
    ({ m with players := m.players ++ [(side, p)] },
      [NetAct.sendInit side WIDTH HEIGHT LAG_COMP_MS])

end

/-! ## Lemmas about the client reconstruction buffer -/

theorem evict_length_ge (c : ℚ) : ∀ l : List Entry, min l.length 2 ≤ (evict c l).length := by
  intro l
  induction l with
  | nil => simp [evict]
  | cons e rest ih =>
    simp only [evict]
    by_cases h : 2 < (e :: rest).length ∧ e.t < c
    · rw [if_pos h]
      have h1 := h.1
      simp only [List.length_cons] at h1 ⊢
      omega
    · rw [if_neg h]
      exact min_le_left _ _

theorem lerp_self (a t : ℚ) : lerp a a t = a := by simp [lerp]

theorem lerp_one (a b : ℚ) : lerp a b 1 = b := by simp [lerp]

theorem mergeSide_self (α : ℚ) (s : Option PaddleInfo) : mergeSide α s s = s := by
  cases s with
  | none => rfl
  | some p => simp [mergeSide, lerp_self]

theorem mergeSide_one (pl nl : Option PaddleInfo) (h : pl.isSome = true → nl.isSome = true) :
    mergeSide 1 pl nl = nl := by
  cases nl with
  | some n =>
    cases pl with
    | none => rfl
    | some p => simp [mergeSide, lerp_one]
  | none =>
    cases pl with
    | none => rfl
    | some p => simp at h

theorem interpPose_self (e : Entry) (α : ℚ) : interpPose e e α = poseOf e := by
  simp [interpPose, poseOf, lerp_self, mergeSide_self]

theorem interpPose_one (p n : Entry) (hl : p.left.isSome = true → n.left.isSome = true)
    (hr : p.right.isSome = true → n.right.isSome = true) :
    interpPose p n 1 = poseOf n := by
  simp [interpPose, poseOf, lerp_one, mergeSide_one _ _ hl, mergeSide_one _ _ hr]

theorem sampIdxAux_eq_zero (buf : List Entry) (rt : ℚ)
    (h : ∀ j, j < buf.length → rt < (buf.getD j dEntry).t) :
    ∀ k, k < buf.length → sampIdxAux buf rt k = 0 := by
  intro k
  induction k with
  | zero => intro _; rfl
  | succ n ih =>
    intro hk
    have hn : n < buf.length := by omega
    simp only [sampIdxAux]
    rw [if_pos (h n hn)]
    exact ih hn

theorem sampleState_below_range (buf : List Entry) (rt : ℚ) (h0 : buf ≠ [])
    (h : ∀ e ∈ buf, rt < e.t) :
    sampleState buf rt = some (poseOf (buf.head h0)) := by
  have hlen : buf.length ≠ 0 := fun hc => h0 (List.length_eq_zero.mp hc)
  have hd : ∀ j, j < buf.length → rt < (buf.getD j dEntry).t := by
    intro j hj
    rw [List.getD_eq_getElem buf dEntry hj]
    exact h _ (List.getElem_mem hj)
  have hidx : sampIdxAux buf rt (buf.length - 1) = 0 :=
    sampIdxAux_eq_zero buf rt hd _ (by omega)
  unfold sampleState bracketAt
  rw [if_neg hlen]
  simp only [hidx, Nat.zero_sub]
  cases buf with
  | nil => exact absurd rfl h0
  | cons e rest =>
    simp only [List.get?]
    rw [interpPose_self]
    rfl

theorem sampleState_above_range (buf : List Entry) (rt : ℚ) (p n : Entry)
    (hp : buf.get? (buf.length - 2) = some p) (hn : buf.get? (buf.length - 1) = some n)
    (h2 : 2 ≤ buf.length) (hpn : p.t < n.t) (hrt : n.t ≤ rt)
    (hl : p.left.isSome = true → n.left.isSome = true)
    (hr : p.right.isSome = true → n.right.isSome = true) :
    sampleState buf rt = some (poseOf n) := by
  have hlen : buf.length ≠ 0 := by omega
  have hsplit : buf.length - 1 = (buf.length - 2) + 1 := by omega
  have hgetD : buf.getD (buf.length - 2) dEntry = p := by
    rw [List.getD_eq_getD_get?, hp]; rfl
  have hidx : sampIdxAux buf rt (buf.length - 1) = buf.length - 1 := by
    rw [hsplit]
    simp only [sampIdxAux]
    rw [hgetD, if_neg (by exact not_lt.mpr (le_trans hpn.le hrt)), ← hsplit]
  have hsub : buf.length - 1 - 1 = buf.length - 2 := by omega
  have htotal : n.t - p.t ≠ 0 := sub_ne_zero.mpr hpn.ne'
  have halpha : alphaAt p n rt = 1 := by
    unfold alphaAt clamp01
    simp only [if_neg htotal]
    have hone : (1:ℚ) ≤ (rt - p.t) / (n.t - p.t) := by
      rw [le_div_iff₀ (by linarith)]
      linarith
    rw [min_eq_left hone, max_eq_right zero_le_one]
  unfold sampleState bracketAt
  rw [if_neg hlen]
  simp only [hidx, hsub, hp, hn]
  rw [halpha, interpPose_one p n hl hr]

theorem clamp01_mem (v : ℚ) : 0 ≤ clamp01 v ∧ clamp01 v ≤ 1 :=
  ⟨le_max_left _ _, max_le (by norm_num) (min_le_left _ _)⟩

/-- C6: the eviction run after each append never reduces the number of
stored reconstruction-buffer entries below 2 while any entries exist: after
ingesting a snapshot into a buffer of `len` entries, at least
`min (len + 1) 2` entries remain, no matter how far the oldest timestamps
fall before the retention cutoff. -/
theorem claim6_eviction_keeps_two (cutoff : ℚ) (e : Entry) (buf : List Entry) :
    min (buf.length + 1) 2 ≤ (ingest cutoff e buf).length := by
  have h := evict_length_ge cutoff (buf ++ [e])
  simpa [ingest] using h

/-- C5: whenever the pair `(prev, next)` selected by `sampleState` brackets
`renderTime`, the interpolation factor `alpha` lies within `[0, 1]`; and
sampling is deterministic: equal buffer contents and equal render time give
equal output (the embedded `sampleState` reads, never writes, the buffer). -/
theorem claim5_alpha_unit_deterministic (buf : List Entry) (rt : ℚ) (prev next : Entry)
    (hb : bracketAt buf rt = some (prev, next)) (h1 : prev.t ≤ rt) (h2 : rt ≤ next.t) :
    (0 ≤ alphaAt prev next rt ∧ alphaAt prev next rt ≤ 1) ∧
      ∀ (buf2 : List Entry) (rt2 : ℚ), buf2 = buf → rt2 = rt →
        sampleState buf2 rt2 = sampleState buf rt := by
  refine ⟨clamp01_mem _, ?_⟩
  intro buf2 rt2 hb2 hr2
  rw [hb2, hr2]

theorem claim5_alpha_unit_deterministic_witness :
    (0 ≤ alphaAt ⟨100, 1, 2, none, none⟩ ⟨200, 3, 4, none, none⟩ 150 ∧
      alphaAt ⟨100, 1, 2, none, none⟩ ⟨200, 3, 4, none, none⟩ 150 ≤ 1) ∧
    sampleState [⟨100, 1, 2, none, none⟩, ⟨200, 3, 4, none, none⟩] 150 =
      sampleState [⟨100, 1, 2, none, none⟩, ⟨200, 3, 4, none, none⟩] 150 :=
  ⟨(claim5_alpha_unit_deterministic [⟨100, 1, 2, none, none⟩, ⟨200, 3, 4, none, none⟩] 150
      ⟨100, 1, 2, none, none⟩ ⟨200, 3, 4, none, none⟩ (by decide) (by decide) (by decide)).1,
   (claim5_alpha_unit_deterministic [⟨100, 1, 2, none, none⟩, ⟨200, 3, 4, none, none⟩] 150
      ⟨100, 1, 2, none, none⟩ ⟨200, 3, 4, none, none⟩ (by decide) (by decide) (by decide)).2
      _ 150 rfl rfl⟩

/-- C4 (amended): when `renderTime` falls outside the buffered time range,
`sampleState` holds the nearest end of the buffer, not always the newest
entry: below the oldest timestamp it returns the oldest entry's pose, and
at or beyond the newest timestamp (adjacent final timestamps strictly
increasing, sides not disappearing in the newest entry) it returns the
newest entry's pose. -/
theorem claim4_sample_out_of_range (buf : List Entry) (rt : ℚ) :
    (∀ h0 : buf ≠ [], (∀ e ∈ buf, rt < e.t) →
        sampleState buf rt = some (poseOf (buf.head h0))) ∧
    (∀ p n : Entry, buf.get? (buf.length - 2) = some p →
        buf.get? (buf.length - 1) = some n → 2 ≤ buf.length → p.t < n.t → n.t ≤ rt →
        (p.left.isSome = true → n.left.isSome = true) →
        (p.right.isSome = true → n.right.isSome = true) →
        sampleState buf rt = some (poseOf n)) :=
  ⟨fun h0 h => sampleState_below_range buf rt h0 h,
   fun p n hp hn h2 hpn hrt hl hr => sampleState_above_range buf rt p n hp hn h2 hpn hrt hl hr⟩

theorem claim4_sample_out_of_range_witness :
    sampleState [(⟨100, 1, 2, none, none⟩ : Entry), ⟨200, 3, 4, none, none⟩] 90 =
        some (poseOf (⟨100, 1, 2, none, none⟩ : Entry)) ∧
    sampleState [(⟨100, 1, 2, none, none⟩ : Entry), ⟨200, 3, 4, none, none⟩] 250 =
        some (poseOf (⟨200, 3, 4, none, none⟩ : Entry)) :=
  ⟨(claim4_sample_out_of_range [⟨100, 1, 2, none, none⟩, ⟨200, 3, 4, none, none⟩] 90).1
      (by decide) (by decide),
   (claim4_sample_out_of_range [⟨100, 1, 2, none, none⟩, ⟨200, 3, 4, none, none⟩] 250).2
      ⟨100, 1, 2, none, none⟩ ⟨200, 3, 4, none, none⟩ (by decide) (by decide) (by decide)
      (by decide) (by decide) (by decide) (by decide)⟩

/-- C4 counterexample: with buffer entries at t = 100 and t = 200 and
renderTime 50, no adjacent pair brackets the render time, yet `sampleState`
returns the pose of the *oldest* entry (ball x = 0), not the pose of the
newest buffered entry (ball x = 50) that the claim requires. -/
theorem claim4_cex :
    (([⟨100, 0, 0, none, none⟩, ⟨200, 50, 0, none, none⟩] : List Entry) ≠ []) ∧
    (([⟨100, 0, 0, none, none⟩, ⟨200, 50, 0, none, none⟩] : List Entry).getD 0 dEntry).t
        = 100 ∧
    (([⟨100, 0, 0, none, none⟩, ⟨200, 50, 0, none, none⟩] : List Entry).getD 1 dEntry).t
        = 200 ∧
    ¬ ((100:ℚ) ≤ 50 ∧ (50:ℚ) ≤ 200) ∧
    (([⟨100, 0, 0, none, none⟩, ⟨200, 50, 0, none, none⟩] : List Entry).getLast? =
        some ⟨200, 50, 0, none, none⟩) ∧
    sampleState [⟨100, 0, 0, none, none⟩, ⟨200, 50, 0, none, none⟩] 50 =
        some (poseOf (⟨100, 0, 0, none, none⟩ : Entry)) ∧
    some (poseOf (⟨100, 0, 0, none, none⟩ : Entry)) ≠
        some (poseOf (⟨200, 50, 0, none, none⟩ : Entry)) := by
  refine ⟨by decide, by decide, by decide, by decide, by decide, ?_, by decide⟩
  exact sampleState_below_range _ _ (by decide) (by decide)

/-! ## Lemmas about the server physics -/

theorem collide_left_eq (padX padY : ℝ) (b : Ball) (h : overlaps padX padY b) :
    collide padX padY true b =
      { x := if b.vx < 0 then padX + PADDLE_W + BALL_R else b.x,
        y := b.y,
        vx := Real.cos ((b.y - (padY + PADDLE_H / 2)) / (PADDLE_H / 2) * (Real.pi / 4)) *
          min (Real.sqrt (b.vx ^ 2 + b.vy ^ 2) * 1.03) 12,
        vy := Real.sin ((b.y - (padY + PADDLE_H / 2)) / (PADDLE_H / 2) * (Real.pi / 4)) *
          min (Real.sqrt (b.vx ^ 2 + b.vy ^ 2) * 1.03) 12 } := by
  unfold collide
  rw [if_pos h]
  simp

theorem collide_right_eq (padX padY : ℝ) (b : Ball) (h : overlaps padX padY b) :
    collide padX padY false b =
      { x := if b.vx > 0 then padX - BALL_R else b.x,
        y := b.y,
        vx := -(Real.cos ((b.y - (padY + PADDLE_H / 2)) / (PADDLE_H / 2) * (Real.pi / 4)) *
          min (Real.sqrt (b.vx ^ 2 + b.vy ^ 2) * 1.03) 12),
        vy := Real.sin ((b.y - (padY + PADDLE_H / 2)) / (PADDLE_H / 2) * (Real.pi / 4)) *
          min (Real.sqrt (b.vx ^ 2 + b.vy ^ 2) * 1.03) 12 } := by
  unfold collide
  rw [if_pos h]
  simp

theorem newSpeed_nonneg (b : Ball) : 0 ≤ min (Real.sqrt (b.vx ^ 2 + b.vy ^ 2) * 1.03) 12 :=
  le_min (mul_nonneg (Real.sqrt_nonneg _) (by norm_num)) (by norm_num)

theorem sqrt_cos_sin (a s : ℝ) (hs : 0 ≤ s) :
    Real.sqrt ((Real.cos a * s) ^ 2 + (Real.sin a * s) ^ 2) = s := by
  have hcs := Real.sin_sq_add_cos_sq a
  have h1 : (Real.cos a * s) ^ 2 + (Real.sin a * s) ^ 2 = s ^ 2 := by
    linear_combination s ^ 2 * hcs
  rw [h1]
  exact Real.sqrt_sq hs

theorem sqrt_neg_cos_sin (a s : ℝ) (hs : 0 ≤ s) :
    Real.sqrt ((-(Real.cos a * s)) ^ 2 + (Real.sin a * s) ^ 2) = s := by
  rw [neg_sq]
  exact sqrt_cos_sin a s hs

/-- C1 (amended): for every tick in which the ball overlaps a paddle's
rectangle — whichever side the paddle is on and whichever way the ball is
moving — the collision response sets the new speed to
`min(previous_speed * 1.03, 12)`, so the resulting speed never exceeds the
cap 12.  The push-out guarantee holds only when the ball is moving toward
the struck paddle: left paddle with vx < 0 is clamped to
x = padX + PADDLE_W + BALL_R, right paddle with vx > 0 to x = padX - BALL_R.
The push-out part of the original claim fails for overlaps while moving
away, see the counterexample. -/
theorem claim1_collide_toward (padX padY : ℝ) (b : Ball) (hov : overlaps padX padY b) :
    (∀ s : Bool,
      speedOf (collide padX padY s b) = min (speedOf b * 1.03) 12 ∧
      speedOf (collide padX padY s b) ≤ 12) ∧
    (b.vx < 0 → (collide padX padY true b).x = padX + PADDLE_W + BALL_R) ∧
    (b.vx > 0 → (collide padX padY false b).x = padX - BALL_R) := by
  refine ⟨?_, ?_, ?_⟩
  · intro s
    cases s with
    | true =>
      rw [collide_left_eq padX padY b hov]
      unfold speedOf
      dsimp only
      rw [sqrt_cos_sin _ _ (newSpeed_nonneg b)]
      exact ⟨rfl, min_le_right _ _⟩
    | false =>
      rw [collide_right_eq padX padY b hov]
      unfold speedOf
      dsimp only
      rw [sqrt_neg_cos_sin _ _ (newSpeed_nonneg b)]
      exact ⟨rfl, min_le_right _ _⟩
  · intro hvx
    rw [collide_left_eq padX padY b hov]
    dsimp only
    rw [if_pos hvx]
  · intro hvx
    rw [collide_right_eq padX padY b hov]
    dsimp only
    rw [if_pos hvx]

theorem claim1_collide_toward_witness :
    (speedOf (collide 20 205 true ⟨25, 250, 3, 4⟩) =
        min (speedOf ⟨25, 250, 3, 4⟩ * 1.03) 12 ∧
      speedOf (collide 20 205 true ⟨25, 250, 3, 4⟩) ≤ 12) ∧
    (speedOf (collide 20 205 true ⟨25, 250, -3, 4⟩) =
        min (speedOf ⟨25, 250, -3, 4⟩ * 1.03) 12 ∧
      speedOf (collide 20 205 true ⟨25, 250, -3, 4⟩) ≤ 12) ∧
    ((⟨25, 250, -3, 4⟩ : Ball).vx < 0) ∧
    (collide 20 205 true ⟨25, 250, -3, 4⟩).x = 20 + PADDLE_W + BALL_R := by
  have hovAway : overlaps 20 205 ⟨25, 250, 3, 4⟩ := by
    norm_num [overlaps, BALL_R, PADDLE_W, PADDLE_H]
  have hov : overlaps 20 205 ⟨25, 250, -3, 4⟩ := by
    norm_num [overlaps, BALL_R, PADDLE_W, PADDLE_H]
  have hvx : (⟨25, 250, -3, 4⟩ : Ball).vx < 0 := by norm_num
  exact ⟨(claim1_collide_toward 20 205 ⟨25, 250, 3, 4⟩ hovAway).1 true,
    (claim1_collide_toward 20 205 ⟨25, 250, -3, 4⟩ hov).1 true,
    hvx, (claim1_collide_toward 20 205 ⟨25, 250, -3, 4⟩ hov).2.1 hvx⟩

/-- C1 counterexample: the ball at (25, 250) moving right (vx = 3 > 0)
overlaps the left paddle at padY = 205; the collision branch runs (it is
not direction-gated) but performs no push-out, so afterwards the ball still
sits at x = 25, strictly inside the paddle's rectangle, contradicting the
claimed post-collision bound x ≥ padX + PADDLE_W + BALL_R = 40. -/
theorem claim1_cex :
    overlaps 20 205 ⟨25, 250, 3, 4⟩ ∧
    ((⟨25, 250, 3, 4⟩ : Ball).vx > 0) ∧
    (collide 20 205 true ⟨25, 250, 3, 4⟩).x = 25 ∧
    ¬ (20 + PADDLE_W + BALL_R ≤ (collide 20 205 true ⟨25, 250, 3, 4⟩).x) := by
  have hov : overlaps 20 205 ⟨25, 250, 3, 4⟩ := by
    norm_num [overlaps, BALL_R, PADDLE_W, PADDLE_H]
  have hx : (collide 20 205 true ⟨25, 250, 3, 4⟩).x = 25 := by
    rw [collide_left_eq 20 205 _ hov]
    dsimp only
    rw [if_neg (by norm_num)]
  refine ⟨hov, by norm_num, hx, ?_⟩
  rw [hx]
  norm_num [PADDLE_W, BALL_R]

/-- C2 (amended): only the position clamp of the paddle collision is gated
on the ball moving toward the paddle; the overlap test itself is not.  A
ball overlapping a paddle while moving away from it keeps its position, but
its velocity is still rewritten by the reflection formula (direction sign
away from the struck paddle), so it is not left unchanged. -/
theorem claim2_collide_away (padX padY : ℝ) (b : Ball) (hov : overlaps padX padY b) :
    (0 ≤ b.vx →
      (collide padX padY true b).x = b.x ∧ (collide padX padY true b).y = b.y ∧
      (collide padX padY true b).vx =
        Real.cos ((b.y - (padY + PADDLE_H / 2)) / (PADDLE_H / 2) * (Real.pi / 4)) *
          min (speedOf b * 1.03) 12 ∧
      (collide padX padY true b).vy =
        Real.sin ((b.y - (padY + PADDLE_H / 2)) / (PADDLE_H / 2) * (Real.pi / 4)) *
          min (speedOf b * 1.03) 12) ∧
    (b.vx ≤ 0 →
      (collide padX padY false b).x = b.x ∧ (collide padX padY false b).y = b.y ∧
      (collide padX padY false b).vx =
        -(Real.cos ((b.y - (padY + PADDLE_H / 2)) / (PADDLE_H / 2) * (Real.pi / 4)) *
          min (speedOf b * 1.03) 12) ∧
      (collide padX padY false b).vy =
        Real.sin ((b.y - (padY + PADDLE_H / 2)) / (PADDLE_H / 2) * (Real.pi / 4)) *
          min (speedOf b * 1.03) 12) := by
  constructor
  · intro hvx
    rw [collide_left_eq padX padY b hov]
    unfold speedOf
    dsimp only
    rw [if_neg (not_lt.mpr hvx)]
    exact ⟨rfl, rfl, rfl, rfl⟩
  · intro hvx
    rw [collide_right_eq padX padY b hov]
    unfold speedOf
    dsimp only
    rw [if_neg (not_lt.mpr hvx)]
    exact ⟨rfl, rfl, rfl, rfl⟩

theorem claim2_collide_away_witness :
    ((0:ℝ) ≤ (⟨25, 250, 3, 3⟩ : Ball).vx) ∧
    (collide 20 205 true ⟨25, 250, 3, 3⟩).x = (⟨25, 250, 3, 3⟩ : Ball).x ∧
    (collide 20 205 true ⟨25, 250, 3, 3⟩).y = (⟨25, 250, 3, 3⟩ : Ball).y := by
  have hov : overlaps 20 205 ⟨25, 250, 3, 3⟩ := by
    norm_num [overlaps, BALL_R, PADDLE_W, PADDLE_H]
  have h := (claim2_collide_away 20 205 ⟨25, 250, 3, 3⟩ hov).1 (by norm_num)
  exact ⟨by norm_num, h.1, h.2.1⟩

/-- C2 counterexample: the ball at (25, 250) with velocity (3, 3) moves
away from the left paddle (vx > 0) while overlapping it at padY = 205, yet
the collision test does not leave it unchanged: the reflection formula
rewrites vy from 3 to sin(0) * speed = 0. -/
theorem claim2_cex :
    overlaps 20 205 ⟨25, 250, 3, 3⟩ ∧
    ((⟨25, 250, 3, 3⟩ : Ball).vx > 0) ∧
    collide 20 205 true ⟨25, 250, 3, 3⟩ ≠ (⟨25, 250, 3, 3⟩ : Ball) := by
  have hov : overlaps 20 205 ⟨25, 250, 3, 3⟩ := by
    norm_num [overlaps, BALL_R, PADDLE_W, PADDLE_H]
  have hvy : (collide 20 205 true ⟨25, 250, 3, 3⟩).vy = 0 := by
    rw [collide_left_eq 20 205 _ hov]
    dsimp only
    norm_num [PADDLE_H]
  refine ⟨hov, by norm_num, fun heq => ?_⟩
  have h3 : (0:ℝ) = 3 := by
    rw [← hvy, heq]
  norm_num at h3

/-! ## Goal checks and session admission -/

theorem goalStep_left_fire (a1 a2 : ℝ) (L R : Option PlayerS) (b : Ball)
    (h : b.x < -(BALL_R * 2)) :
    goalStep a1 a2 L R b =
      (resetBall a1 1, L, R.map fun p => { p with score := p.score + 1 }) := by
  have hx : ¬ ((resetBall a1 1).x > WIDTH + BALL_R * 2) := by
    norm_num [resetBall, WIDTH, BALL_R]
  simp only [goalStep]
  rw [if_pos h]
  dsimp only
  rw [if_neg hx]

theorem goalStep_right_fire (a1 a2 : ℝ) (L R : Option PlayerS) (b : Ball)
    (h1 : ¬ (b.x < -(BALL_R * 2))) (h2 : b.x > WIDTH + BALL_R * 2) :
    goalStep a1 a2 L R b =
      (resetBall a2 (-1), L.map fun p => { p with score := p.score + 1 }, R) := by
  simp only [goalStep]
  rw [if_neg h1]
  dsimp only
  rw [if_pos h2]

theorem goalStep_no_fire (a1 a2 : ℝ) (L R : Option PlayerS) (b : Ball)
    (h1 : ¬ (b.x < -(BALL_R * 2))) (h2 : ¬ (b.x > WIDTH + BALL_R * 2)) :
    goalStep a1 a2 L R b = (b, L, R) := by
  simp only [goalStep]
  rw [if_neg h1]
  dsimp only
  rw [if_neg h2]

/-- C7 (amended): on every tick in which the ball exits through a goal
boundary, the ball is reset to the field center in the same tick, the
conceding side's score is never changed, and the opposing side's score is
incremented by exactly 1 *when that side is occupied* — when the opposing
side is empty, no score changes at all (see the counterexample against the
original "exactly one side's score is incremented"). -/
theorem claim7_goal_scoring (a1 a2 : ℝ) (L R : Option PlayerS) (b : Ball)
    (h : b.x < -(BALL_R * 2) ∨ WIDTH + BALL_R * 2 < b.x) :
    ((goalStep a1 a2 L R b).1.x = WIDTH / 2 ∧ (goalStep a1 a2 L R b).1.y = HEIGHT / 2) ∧
    (b.x < -(BALL_R * 2) →
      (goalStep a1 a2 L R b).2.1 = L ∧
      (goalStep a1 a2 L R b).2.2 = R.map fun p => { p with score := p.score + 1 }) ∧
    (WIDTH + BALL_R * 2 < b.x →
      (goalStep a1 a2 L R b).2.2 = R ∧
      (goalStep a1 a2 L R b).2.1 = L.map fun p => { p with score := p.score + 1 }) := by
  rcases h with h | h
  · rw [goalStep_left_fire a1 a2 L R b h]
    refine ⟨⟨rfl, rfl⟩, fun _ => ⟨rfl, rfl⟩, fun h2 => absurd h2 ?_⟩
    norm_num [WIDTH, BALL_R] at h ⊢
    linarith
  · have h1 : ¬ (b.x < -(BALL_R * 2)) := by
      norm_num [WIDTH, BALL_R] at h ⊢
      linarith
    rw [goalStep_right_fire a1 a2 L R b h1 h]
    refine ⟨⟨rfl, rfl⟩, fun h2 => absurd h2 ?_, fun _ => ⟨rfl, rfl⟩⟩
    norm_num [WIDTH, BALL_R] at h ⊢
    linarith

theorem claim7_goal_scoring_witness :
    ((⟨-20, 250, -5, 0⟩ : Ball).x < -(BALL_R * 2)) ∧
    (goalStep 0 0 (some ⟨205, 1, false, false, 0, none⟩) (some ⟨100, 2, false, false, 0, none⟩)
        ⟨-20, 250, -5, 0⟩).1.x = WIDTH / 2 ∧
    (goalStep 0 0 (some ⟨205, 1, false, false, 0, none⟩) (some ⟨100, 2, false, false, 0, none⟩)
        ⟨-20, 250, -5, 0⟩).2.1 = some ⟨205, 1, false, false, 0, none⟩ ∧
    (goalStep 0 0 (some ⟨205, 1, false, false, 0, none⟩) (some ⟨100, 2, false, false, 0, none⟩)
        ⟨-20, 250, -5, 0⟩).2.2 = some ⟨100, 3, false, false, 0, none⟩ := by
  have h : (⟨-20, 250, -5, 0⟩ : Ball).x < -(BALL_R * 2) := by norm_num [BALL_R]
  have hm := claim7_goal_scoring 0 0 (some ⟨205, 1, false, false, 0, none⟩)
      (some ⟨100, 2, false, false, 0, none⟩) ⟨-20, 250, -5, 0⟩ (Or.inl h)
  refine ⟨h, hm.1.1, (hm.2.1 h).1, ?_⟩
  rw [(hm.2.1 h).2]
  norm_num [Option.map_some']

/-- C7 counterexample: with only the left Participant present, the ball
exits through the left goal boundary, and neither side's score is
incremented — the left record is unchanged and the right side does not
exist — contradicting "exactly one side's score is incremented by exactly 1". -/
theorem claim7_cex :
    ((⟨-20, 250, -5, 0⟩ : Ball).x < -(BALL_R * 2)) ∧
    (goalStep 0 0 (some ⟨205, 1, false, false, 0, none⟩) none ⟨-20, 250, -5, 0⟩).2.1 =
        some ⟨205, 1, false, false, 0, none⟩ ∧
    (goalStep 0 0 (some ⟨205, 1, false, false, 0, none⟩) none ⟨-20, 250, -5, 0⟩).2.2 = none ∧
    (goalStep 0 0 (some ⟨205, 1, false, false, 0, none⟩) none ⟨-20, 250, -5, 0⟩).1.x =
        WIDTH / 2 := by
  have h : (⟨-20, 250, -5, 0⟩ : Ball).x < -(BALL_R * 2) := by norm_num [BALL_R]
  rw [goalStep_left_fire 0 0 _ _ _ h]
  exact ⟨h, rfl, rfl, rfl⟩

/-- C8: a connection arriving while two Participants are present is sent
the `full` notice, then closed, and the whole match state — player records,
ball, scores, sequence number — is returned unchanged. -/
theorem claim8_full_rejected (now : ℝ) (m : SMatch) (h : 2 ≤ m.players.length) :
    handleConnection now m = (m, [NetAct.sendFull, NetAct.closeConn]) := by
  unfold handleConnection
  rw [if_pos h]

theorem claim8_full_rejected_witness :
    handleConnection 99
        ⟨[(Side.left, ⟨205, 0, false, false, 0, none⟩),
          (Side.right, ⟨205, 0, false, false, 0, none⟩)], ⟨400, 250, 5, 4⟩, 7⟩ =
      (⟨[(Side.left, ⟨205, 0, false, false, 0, none⟩),
          (Side.right, ⟨205, 0, false, false, 0, none⟩)], ⟨400, 250, 5, 4⟩, 7⟩,
        [NetAct.sendFull, NetAct.closeConn]) :=
  claim8_full_rejected 99 _ (by simp)

/-! ## Paddle homing and control modes -/

theorem clampDesired_zero : clampDesired 0 = 45 := by
  unfold clampDesired
  norm_num [PADDLE_H, HEIGHT]

theorem updatePaddle_some (p : PlayerS) (d : ℝ) (h : p.desiredY = some d) :
    updatePaddle p = { p with y := homeStep d p.y } := by
  unfold updatePaddle
  rw [h]

theorem updatePaddle_desired (p : PlayerS) : (updatePaddle p).desiredY = p.desiredY := by
  unfold updatePaddle
  cases hval : p.desiredY <;> rfl

theorem homeStep_45 (y : ℝ) (h0 : 0 ≤ y) (h1 : y ≤ 410) :
    homeStep 45 y = max (y - 18) 0 := by
  have hP : PADDLE_H / 2 = (45:ℝ) := by norm_num [PADDLE_H]
  have hH : HEIGHT - PADDLE_H = (410:ℝ) := by norm_num [HEIGHT, PADDLE_H]
  unfold homeStep
  rw [hP, hH]
  have e1 : (45:ℝ) - (y + 45) = -y := by ring
  rw [e1]
  have e2 : min (18:ℝ) (-y) = -y := min_eq_right (by linarith)
  rw [e2]
  have e3 : y + max (-18) (-y) = max (y - 18) 0 := by
    rw [← max_add_add_left]
    congr 1 <;> ring
  rw [e3]
  have e4 : min (410:ℝ) (max (y - 18) 0) = max (y - 18) 0 :=
    min_eq_right (max_le (by linarith) (by norm_num))
  rw [e4]
  exact max_eq_right (le_max_right _ _)

theorem max_sub_step (a : ℝ) : max (max a 0 - 18) 0 = max (a - 18) 0 := by
  rcases le_total a 0 with h | h
  · rw [max_eq_right h, max_eq_right (by linarith : a - 18 ≤ (0:ℝ)),
      max_eq_right (by norm_num : (0:ℝ) - 18 ≤ 0)]
  · rw [max_eq_left h]

theorem max_sub_diff_le (a : ℝ) : max a 0 - max (a - 18) 0 ≤ 18 := by
  rcases le_total a 0 with h | h
  · rw [max_eq_right h, max_eq_right (by linarith : a - 18 ≤ (0:ℝ))]
    norm_num
  · rw [max_eq_left h]
    rcases le_total (a - 18) 0 with h2 | h2
    · rw [max_eq_right h2]
      linarith
    · rw [max_eq_left h2]
      linarith

theorem iterate_homing (p : PlayerS) (h0 : 0 ≤ p.y) (h1 : p.y ≤ 410) :
    ∀ n : ℕ,
      (updatePaddle^[n] (handleMessage p (Msg.touchMove 0))).y = max (p.y - 18 * n) 0 ∧
      (updatePaddle^[n] (handleMessage p (Msg.touchMove 0))).desiredY = some 45 := by
  intro n
  induction n with
  | zero =>
    refine ⟨?_, ?_⟩
    · simp only [Function.iterate_zero_apply, handleMessage]
      rw [Nat.cast_zero]
      rw [show p.y - 18 * 0 = p.y by ring]
      exact (max_eq_left h0).symm
    · simp only [Function.iterate_zero_apply, handleMessage, clampDesired_zero]
  | succ n ih =>
    obtain ⟨ihy, ihd⟩ := ih
    rw [Function.iterate_succ_apply', updatePaddle_some _ 45 ihd]
    constructor
    · dsimp only
      rw [ihy]
      have hub : max (p.y - 18 * (n:ℝ)) 0 ≤ 410 := by
        apply max_le ?_ (by norm_num)
        have : 0 ≤ 18 * (n:ℝ) := by positivity
        linarith
      rw [homeStep_45 _ (le_max_right _ _) hub, max_sub_step]
      congr 1
      push_cast
      ring
    · dsimp only
      exact ihd

/-- C9: if a Participant keeps sending `touchMove` with desiredY = 0 (which
the handler clamps to paddle-center target 45, i.e. paddle offset 0), then
under the per-tick homing update the paddle offset follows
`max(y0 - 18*n, 0)`: it decreases monotonically by at most the bounded
per-tick step 18, never becomes negative (no overshoot past the clamped
minimum 0), and reaches exactly 0 after finitely many ticks
(`⌈y0 / 18⌉` of them). -/
theorem claim9_touchmove_zero_converges (p : PlayerS) (h0 : 0 ≤ p.y)
    (h1 : p.y ≤ HEIGHT - PADDLE_H) :
    (∀ n : ℕ,
      (updatePaddle^[n] (handleMessage p (Msg.touchMove 0))).y = max (p.y - 18 * n) 0) ∧
    (∀ n : ℕ,
      (updatePaddle^[n + 1] (handleMessage p (Msg.touchMove 0))).y ≤
          (updatePaddle^[n] (handleMessage p (Msg.touchMove 0))).y ∧
      0 ≤ (updatePaddle^[n] (handleMessage p (Msg.touchMove 0))).y ∧
      (updatePaddle^[n] (handleMessage p (Msg.touchMove 0))).y -
          (updatePaddle^[n + 1] (handleMessage p (Msg.touchMove 0))).y ≤ 18) ∧
    ∀ m : ℕ, ⌈p.y / 18⌉₊ ≤ m →
      (updatePaddle^[m] (handleMessage p (Msg.touchMove 0))).y = 0 := by
  have h1' : p.y ≤ 410 := by
    norm_num [HEIGHT, PADDLE_H] at h1
    linarith
  have hit := iterate_homing p h0 h1'
  have hcast : ∀ n : ℕ, p.y - 18 * ((n:ℝ) + 1) = (p.y - 18 * n) - 18 := by
    intro n
    ring
  refine ⟨fun n => (hit n).1, fun n => ?_, fun m hm => ?_⟩
  · rw [(hit n).1, (hit (n + 1)).1]
    push_cast
    rw [hcast n]
    refine ⟨?_, le_max_right _ _, max_sub_diff_le _⟩
    exact max_le_max (by linarith) le_rfl
  · rw [(hit m).1]
    apply max_eq_right
    have hc : p.y / 18 ≤ (m:ℝ) := by
      calc p.y / 18 ≤ (⌈p.y / 18⌉₊ : ℝ) := Nat.le_ceil _
        _ ≤ (m:ℝ) := by exact_mod_cast hm
    have h18 : p.y ≤ 18 * m := by
      rw [div_le_iff₀ (by norm_num : (0:ℝ) < 18)] at hc
      linarith
    linarith

theorem claim9_touchmove_zero_converges_witness :
    (updatePaddle^[12] (handleMessage ⟨205, 0, false, false, 0, none⟩ (Msg.touchMove 0))).y
      = max ((205:ℝ) - 18 * ((12:ℕ):ℝ)) 0 ∧
    (updatePaddle^[⌈(205:ℝ) / 18⌉₊]
        (handleMessage ⟨205, 0, false, false, 0, none⟩ (Msg.touchMove 0))).y = 0 :=
  ⟨(claim9_touchmove_zero_converges ⟨205, 0, false, false, 0, none⟩ (by norm_num)
      (by norm_num [HEIGHT, PADDLE_H])).1 12,
   (claim9_touchmove_zero_converges ⟨205, 0, false, false, 0, none⟩ (by norm_num)
      (by norm_num [HEIGHT, PADDLE_H])).2.2 _ le_rfl⟩

theorem handleMessage_desired_some (p : PlayerS) (m : Msg) (h : p.desiredY.isSome = true) :
    (handleMessage p m).desiredY.isSome = true := by
  cases m with
  | input u d => exact h
  | pong now => exact h
  | touchMove d => rfl
  | other => exact h

theorem foldl_keeps_desired (evs : List Ev) :
    ∀ q : PlayerS, q.desiredY.isSome = true →
      ((evs.foldl applyEv q).desiredY).isSome = true := by
  induction evs with
  | nil => exact fun q hq => hq
  | cons e rest ih =>
    intro q hq
    rw [List.foldl_cons]
    apply ih
    cases e with
    | msg m => exact handleMessage_desired_some q m hq
    | tick =>
      show (updatePaddle q).desiredY.isSome = true
      rw [updatePaddle_desired]
      exact hq

/-- C10: once a Participant's `desiredY` is set by a valid `touchMove`, no
later message or tick ever clears it — after any sequence of inbound
messages and tick firings the field is still set — and while it is set the
up/down input flags have no effect on the paddle position update. -/
theorem claim10_target_mode_permanent (p : PlayerS) (h : p.desiredY.isSome = true) :
    (∀ evs : List Ev, ((evs.foldl applyEv p).desiredY).isSome = true) ∧
    (∀ u d : Bool,
      (updatePaddle (handleMessage p (Msg.input u d))).y = (updatePaddle p).y) := by
  constructor
  · exact fun evs => foldl_keeps_desired evs p h
  · intro u d
    obtain ⟨d0, hd0⟩ := Option.isSome_iff_exists.mp h
    have h1 : (handleMessage p (Msg.input u d)).desiredY = some d0 := hd0
    rw [updatePaddle_some _ _ h1, updatePaddle_some _ _ hd0]
    rfl

theorem claim10_target_mode_permanent_witness :
    ((⟨205, 0, false, false, 0, some 45⟩ : PlayerS).desiredY.isSome = true) ∧
    (([Ev.msg (Msg.input true false), Ev.tick].foldl applyEv
        ⟨205, 0, false, false, 0, some 45⟩).desiredY).isSome = true ∧
    (updatePaddle (handleMessage ⟨205, 0, false, false, 0, some 45⟩
        (Msg.input true false))).y =
      (updatePaddle (⟨205, 0, false, false, 0, some 45⟩ : PlayerS)).y :=
  ⟨rfl,
   (claim10_target_mode_permanent ⟨205, 0, false, false, 0, some 45⟩ rfl).1
      [Ev.msg (Msg.input true false), Ev.tick],
   (claim10_target_mode_permanent ⟨205, 0, false, false, 0, some 45⟩ rfl).2 true false⟩

/-! ## Ball position invariant over reachable states -/

theorem wallStep_y_bounds (b : Ball) (h0 : BALL_R ≤ b.y - b.vy)
    (h1 : b.y - b.vy ≤ HEIGHT - BALL_R) :
    BALL_R ≤ (wallStep b).y ∧ (wallStep b).y ≤ HEIGHT - BALL_R := by
  have hb : BALL_R = (8:ℝ) := by norm_num [BALL_R]
  have hh : HEIGHT = (500:ℝ) := by norm_num [HEIGHT]
  simp only [hb, hh] at h0 h1 ⊢
  simp only [wallStep, hb, hh]
  split_ifs with hc1 hc2 hc3
  · constructor <;> norm_num
  · constructor <;> norm_num
  · constructor <;> norm_num
  · push_neg at hc1 hc3
    constructor
    · rcases le_or_lt (b.y - 8) 0 with hle | hgt
      · linarith [hc1 hle]
      · linarith
    · rcases le_or_lt 500 (b.y + 8) with hge | hlt
      · linarith [hc3 (by linarith)]
      · linarith

theorem collide_y_eq (padX padY : ℝ) (s : Bool) (b : Ball) :
    (collide padX padY s b).y = b.y := by
  unfold collide
  by_cases h : overlaps padX padY b
  · rw [if_pos h]
  · rw [if_neg h]

theorem collideStep_y_eq (lp rp : Option ℝ) (b : Ball) :
    (collideStep lp rp b).y = b.y := by
  unfold collideStep
  cases lp <;> cases rp <;> simp only [collide_y_eq]

theorem goalStep_ball_bounds (a1 a2 : ℝ) (L R : Option PlayerS) (b : Ball) :
    (-(2 * BALL_R) ≤ (goalStep a1 a2 L R b).1.x ∧
      (goalStep a1 a2 L R b).1.x ≤ WIDTH + 2 * BALL_R) ∧
    ((goalStep a1 a2 L R b).1.y = b.y ∨ (goalStep a1 a2 L R b).1.y = HEIGHT / 2) := by
  by_cases h1 : b.x < -(BALL_R * 2)
  · rw [goalStep_left_fire a1 a2 L R b h1]
    refine ⟨⟨?_, ?_⟩, Or.inr rfl⟩ <;> norm_num [resetBall, WIDTH, BALL_R]
  · by_cases h2 : b.x > WIDTH + BALL_R * 2
    · rw [goalStep_right_fire a1 a2 L R b h1 h2]
      refine ⟨⟨?_, ?_⟩, Or.inr rfl⟩ <;> norm_num [resetBall, WIDTH, BALL_R]
    · rw [goalStep_no_fire a1 a2 L R b h1 h2]
      push_neg at h1 h2
      exact ⟨⟨by linarith, by linarith⟩, Or.inl rfl⟩

theorem tickBall_inv (lp rp : Option ℝ) (a1 a2 : ℝ) (b : Ball) (h : BallInv b) :
    BallInv (tickBall lp rp a1 a2 b) := by
  obtain ⟨hy0, hy1, hx0, hx1⟩ := h
  have hm0 : BALL_R ≤ (moveBall b).y - (moveBall b).vy := by
    dsimp [moveBall]
    linarith [hy0]
  have hm1 : (moveBall b).y - (moveBall b).vy ≤ HEIGHT - BALL_R := by
    dsimp [moveBall]
    linarith [hy1]
  have hw := wallStep_y_bounds (moveBall b) hm0 hm1
  have hcy : (collideStep lp rp (wallStep (moveBall b))).y = (wallStep (moveBall b)).y :=
    collideStep_y_eq lp rp _
  have hgb := goalStep_ball_bounds a1 a2 none none (collideStep lp rp (wallStep (moveBall b)))
  unfold tickBall
  refine ⟨?_, ?_, hgb.1.1, hgb.1.2⟩
  · rcases hgb.2 with hy | hy
    · rw [hy, hcy]
      exact hw.1
    · rw [hy]
      norm_num [HEIGHT, BALL_R]
  · rcases hgb.2 with hy | hy
    · rw [hy, hcy]
      exact hw.2
    · rw [hy]
      norm_num [HEIGHT, BALL_R]

theorem reach_ballInv (b : Ball) (hb : ReachBall b) : BallInv b := by
  induction hb with
  | init s r hs hr =>
    refine ⟨?_, ?_, ?_, ?_⟩ <;> norm_num [WIDTH, HEIGHT, BALL_R]
  | rearm a d =>
    refine ⟨?_, ?_, ?_, ?_⟩ <;> norm_num [resetBall, WIDTH, HEIGHT, BALL_R]
  | step lp rp a1 a2 b hb ih =>
    exact tickBall_inv lp rp a1 a2 b ih

/-- C3: every ball state reachable at a tick boundary — hence in particular
the state captured by every emitted snapshot — satisfies
`-2*BALL_R ≤ x ≤ WIDTH + 2*BALL_R` and `0 ≤ y ≤ HEIGHT`.  The bound in
fact holds with no goal-tick exception: the goal check recenters the ball
before the snapshot is built, so the claim's "except the scoring tick"
weakening is never needed. -/
theorem claim3_ball_in_field (b : Ball) (hb : ReachBall b) :
    -(2 * BALL_R) ≤ b.x ∧ b.x ≤ WIDTH + 2 * BALL_R ∧ 0 ≤ b.y ∧ b.y ≤ HEIGHT := by
  obtain ⟨hy0, hy1, hx0, hx1⟩ := reach_ballInv b hb
  refine ⟨hx0, hx1, ?_, ?_⟩ <;> norm_num [BALL_R, HEIGHT] at hy0 hy1 ⊢ <;> linarith

theorem claim3_ball_in_field_witness :
    -(2 * BALL_R) ≤ (⟨WIDTH / 2, HEIGHT / 2, 5 * 1, (1 * 2 - 1) * 4⟩ : Ball).x ∧
    (⟨WIDTH / 2, HEIGHT / 2, 5 * 1, (1 * 2 - 1) * 4⟩ : Ball).x ≤ WIDTH + 2 * BALL_R ∧
    0 ≤ (⟨WIDTH / 2, HEIGHT / 2, 5 * 1, (1 * 2 - 1) * 4⟩ : Ball).y ∧
    (⟨WIDTH / 2, HEIGHT / 2, 5 * 1, (1 * 2 - 1) * 4⟩ : Ball).y ≤ HEIGHT :=
  claim3_ball_in_field _ (ReachBall.init 1 1 (Or.inl rfl) ⟨by norm_num, le_refl 1⟩)

end PingPong
